import Mathlib

/-!
Command parsing of the TFTP client shell `tftpc`.

A shallow embedding of `src/client/cmd.cpp` and `include/client/cmd.h`.

* `std::string` / `std::string_view` are Lean `String`s, one `Char` per C++ `char`.
* `std::vector<std::string>` is `List String`.
* `std::expected<T, ParseStatus>` is `Except ParseStatus T`.
* A function that can leave through a C++ exception returns
  `Except StdException _`; the exception is the `error` of the outer layer.
* `uint64_t`, `uint32_t`, `uint16_t` values are `Nat`s, reduced explicitly where the
  source converts between widths.
-/

namespace tftp

/-- Modelled from the spec: the enumeration `ParseStatus` of `common/parse.h`, which is
not among the sources. These are the four failure codes the factories of `cmd.cpp`
return; section 6 of the specification lists the same four parse failures. -/
inductive ParseStatus where
  | kInvalidNumArgs
  | kInvalidTimeout
  | kInvalidPortNum
  | kInvalidMode
  deriving DecidableEq, Repr

/-- Modelled from the spec: the type `Seconds` of `common/types.h`, which is not among
the sources: a duration in whole seconds in the unsigned 32-bit range. -/
abbrev Seconds := Nat

/-- Converting a `uint64_t` to `Seconds` keeps the low 32 bits. -/
def toSeconds (v : Nat) : Seconds := v % 2 ^ 32

/-- The type `Hostname` of `common/types.h`: a string. -/
abbrev Hostname := String

/-- The type `Mode` of `common/types.h`: a string. -/
abbrev Mode := String

/-- The two exceptions `std::stoull` throws. -/
inductive StdException where
  | invalid_argument
  | out_of_range
  deriving DecidableEq, Repr

/-- Equality of two `Except` values is decidable. -/
instance instDecidableEqExcept {ε α : Type} [DecidableEq ε] [DecidableEq α] :
    DecidableEq (Except ε α)
  | .ok a, .ok b => if h : a = b then isTrue (by rw [h]) else isFalse (by intro e; cases e; exact h rfl)
  | .error a, .error b =>
    if h : a = b then isTrue (by rw [h]) else isFalse (by intro e; cases e; exact h rfl)
  | .ok _, .error _ => isFalse (by intro e; cases e)
  | .error _, .ok _ => isFalse (by intro e; cases e)

namespace client

abbrev Token := String
abbrev TokenList := List String
abbrev Id := String
abbrev File := String
abbrev FileList := List File
abbrev ExpectedCmd (T : Type) := Except ParseStatus T

/-- The constant `std::numeric_limits<unsigned long long>::max()`. -/
def ULLONG_MAX : Nat := 2 ^ 64 - 1
/-- The constant `std::numeric_limits<uint32_t>::max()`. -/
def UINT32_MAX : Nat := 2 ^ 32 - 1
/-- The constant `std::numeric_limits<uint16_t>::max()`. -/
def UINT16_MAX : Nat := 2 ^ 16 - 1

/-- The function `std::isspace` in the "C" locale: space, `\t`, `\n`, `\v`, `\f`, `\r`. -/
def isspace (c : Char) : Bool :=
  c.toNat = 32 || (9 ≤ c.toNat && c.toNat ≤ 13)

/-- The function `std::isdigit`: the characters `'0'` to `'9'`. -/
def isdigit (c : Char) : Bool :=
  48 ≤ c.toNat && c.toNat ≤ 57

/-- A `const char*` read as a C string: the characters before the first NUL.
This is what `std::istringstream buffer(cmdline.data())` and
`std::stoull(num_str.data())` see of a `std::string_view`. -/
def c_str (s : List Char) : List Char :=
  s.takeWhile (fun c => c.toNat ≠ 0)

/-- The loop of `std::istream_iterator<std::string>`: each `operator>>` skips
whitespace and then reads characters up to the next whitespace or the end of the
stream; the iteration ends when an extraction reads no character. `cur` holds the
characters of the token being read. -/
def extractTokens : List Char → List Char → List (List Char)
  | cur, [] => if cur.isEmpty then [] else [cur]
  | cur, c :: cs =>
    if isspace c then
      if cur.isEmpty then extractTokens [] cs else cur :: extractTokens [] cs
    else extractTokens (cur ++ [c]) cs

/-- The function `Tokenize` of `cmd.cpp`. -/
def Tokenize (cmdline : String) : TokenList :=
  (extractTokens [] (c_str cmdline.data)).map String.mk

/-- The function `IsPositiveNum` of `cmd.cpp`: `std::all_of` over the characters with `std::isdigit`. -/
def IsPositiveNum (val : String) : Bool :=
  val.data.all isdigit

/-- The value of a digit character. -/
def digitVal (c : Char) : Nat := c.toNat - 48

/-- The accumulation of `strtoull` in base 10 over a run of digits. -/
def accumulate (ds : List Char) : Nat :=
  ds.foldl (fun acc c => acc * 10 + digitVal c) 0

/-- The call `std::stoull(str)` with the default base 10, on the C string of its argument:
`strtoull` skips leading whitespace, takes an optional sign and the longest run of
digits. No digit: `std::invalid_argument`. A magnitude above `ULLONG_MAX`:
`std::out_of_range`. A leading `-` negates the value in `unsigned long long`. -/
def stoull (str : String) : Except StdException Nat :=
  let s := (c_str str.data).dropWhile isspace
  let negative : Bool := s.head? = some '-'
  let s := if s.head? = some '-' ∨ s.head? = some '+' then s.tail else s
  let ds := s.takeWhile isdigit
  if ds.isEmpty then .error .invalid_argument
  else
    let v := accumulate ds
    if v > ULLONG_MAX then .error .out_of_range
    else .ok (if negative then (2 ^ 64 - v) % 2 ^ 64 else v)

/-- The function `ParseTimeValue` of `cmd.cpp`. -/
def ParseTimeValue (num_str : String) : Except StdException (Except ParseStatus Seconds) :=
  if !IsPositiveNum num_str then .ok (.error .kInvalidTimeout)
  else
    match stoull num_str with
    | .error x => .error x
    | .ok timeout_tmp =>
      if timeout_tmp > UINT32_MAX then .ok (.error .kInvalidTimeout)
      else .ok (.ok (toSeconds timeout_tmp))

/-- The class `GetCmd`; the fields in the order of the header. -/
structure GetCmd where
  remote_file_ : File
  local_file_ : File
  files_ : FileList
  deriving DecidableEq, Repr

/-- The constructor `GetCmd(remote_file, local_file, files)`. -/
def GetCmd.ctor (remote_file local_file : File) (files : FileList) : GetCmd :=
  { remote_file_ := remote_file, local_file_ := local_file, files_ := files }

/-- The accessor `RemoteFile()`. -/
def GetCmd.RemoteFile (c : GetCmd) : File := c.remote_file_
/-- The accessor `LocalFile()`. -/
def GetCmd.LocalFile (c : GetCmd) : File := c.local_file_
/-- The accessor `Files()`. -/
def GetCmd.Files (c : GetCmd) : FileList := c.files_

/-- The factory `GetCmd::Create` of `cmd.cpp`. -/
def GetCmd.Create (cmdline : String) : ExpectedCmd GetCmd :=
  let args := Tokenize cmdline
  if args.length ≤ 1 then .error .kInvalidNumArgs
  else
    let args := args.drop 1
    let files : FileList := []
    let files := if args.length = 1 then [args.getD 0 ""] else files
    let remote_file : File := ""
    let local_file : File := ""
    let remote_file := if args.length = 2 then args.getD 0 "" else remote_file
    let local_file := if args.length = 2 then args.getD 1 "" else local_file
    let files := if args.length > 2 then args else files
    .ok (GetCmd.ctor remote_file local_file files)

/-- The class `PutCmd`; the fields in the order of the header. -/
structure PutCmd where
  remote_file_ : File
  local_file_ : File
  remote_dir_ : File
  files_ : FileList
  deriving DecidableEq, Repr

/-- The constructor `PutCmd(remote_file, local_file, remote_dir, files)`. -/
def PutCmd.ctor (remote_file local_file remote_dir : File) (files : FileList) : PutCmd :=
  { remote_file_ := remote_file, local_file_ := local_file,
    remote_dir_ := remote_dir, files_ := files }

/-- The accessor `RemoteFile()`. -/
def PutCmd.RemoteFile (c : PutCmd) : File := c.remote_file_
/-- The accessor `LocalFile()`. -/
def PutCmd.LocalFile (c : PutCmd) : File := c.local_file_
/-- The accessor `RemoteDir()`. -/
def PutCmd.RemoteDir (c : PutCmd) : File := c.remote_dir_
/-- The accessor `Files()`. -/
def PutCmd.Files (c : PutCmd) : FileList := c.files_

/-- The factory `PutCmd::Create` of `cmd.cpp`. -/
def PutCmd.Create (cmdline : String) : ExpectedCmd PutCmd :=
  let args := Tokenize cmdline
  if args.length ≤ 1 then .error .kInvalidNumArgs
  else
    let args := args.drop 1
    let files : FileList := []
    let files := if args.length = 1 then [args.getD 0 ""] else files
    let local_file : File := ""
    let remote_file : File := ""
    let local_file := if args.length = 2 then args.getD 0 "" else local_file
    let remote_file := if args.length = 2 then args.getD 1 "" else remote_file
    let remote_dir : File := ""
    let remote_dir := if args.length > 2 then args.getLastD "" else remote_dir
    let files := if args.length > 2 then args.take (args.length - 1) else files
    .ok (PutCmd.ctor remote_file local_file remote_dir files)

/-- The class `ConnectCmd`. -/
structure ConnectCmd where
  host_ : String
  port_ : Nat
  deriving DecidableEq, Repr

/-- The constructor `ConnectCmd(host, port)`; `port` is a `uint16_t`. -/
def ConnectCmd.ctor (host : Hostname) (port : Nat) : ConnectCmd :=
  { host_ := host, port_ := port }

/-- The accessor `Host()`. -/
def ConnectCmd.Host (c : ConnectCmd) : String := c.host_
/-- The accessor `Port()`. -/
def ConnectCmd.Port (c : ConnectCmd) : Nat := c.port_

/-- The factory `ConnectCmd::Create` of `cmd.cpp`. -/
def ConnectCmd.Create (cmdline : String) : Except StdException (ExpectedCmd ConnectCmd) :=
  let args := Tokenize cmdline
  if args.length < 2 || args.length > 3 then .ok (.error .kInvalidNumArgs)
  else
    let port : Nat := 0
    if args.length = 3 then
      if !IsPositiveNum (args.getD 2 "") then .ok (.error .kInvalidPortNum)
      else
        match stoull (args.getD 2 "") with
        | .error x => .error x
        | .ok port_tmp =>
          if port_tmp > UINT16_MAX then .ok (.error .kInvalidPortNum)
          else
            let port := port_tmp % 2 ^ 16
            .ok (.ok (ConnectCmd.ctor (args.getD 1 "") port))
    else .ok (.ok (ConnectCmd.ctor (args.getD 1 "") port))

/-- The class `TimeoutCmd`. -/
structure TimeoutCmd where
  timeout_ : Seconds
  deriving DecidableEq, Repr

/-- The constructor `TimeoutCmd(timeout)`. -/
def TimeoutCmd.ctor (timeout : Seconds) : TimeoutCmd := { timeout_ := timeout }
/-- The accessor `Timeout()`. -/
def TimeoutCmd.Timeout (c : TimeoutCmd) : Seconds := c.timeout_

/-- The factory `TimeoutCmd::Create` of `cmd.cpp`. -/
def TimeoutCmd.Create (cmdline : String) : Except StdException (ExpectedCmd TimeoutCmd) :=
  let args := Tokenize cmdline
  if args.length ≠ 2 then .ok (.error .kInvalidNumArgs)
  else
    match ParseTimeValue (args.getD 1 "") with
    | .error x => .error x
    | .ok (.error e) => .ok (.error e)
    | .ok (.ok time_val) => .ok (.ok (TimeoutCmd.ctor time_val))

/-- The class `RexmtCmd`. -/
structure RexmtCmd where
  rexmt_timeout_ : Seconds
  deriving DecidableEq, Repr

/-- The constructor `RexmtCmd(rexmt_timeout)`. -/
def RexmtCmd.ctor (rexmt_timeout : Seconds) : RexmtCmd := { rexmt_timeout_ := rexmt_timeout }
/-- The accessor `RexmtTimeout()`. -/
def RexmtCmd.RexmtTimeout (c : RexmtCmd) : Seconds := c.rexmt_timeout_

/-- The factory `RexmtCmd::Create` of `cmd.cpp`. -/
def RexmtCmd.Create (cmdline : String) : Except StdException (ExpectedCmd RexmtCmd) :=
  let args := Tokenize cmdline
  if args.length ≠ 2 then .ok (.error .kInvalidNumArgs)
  else
    match ParseTimeValue (args.getD 1 "") with
    | .error x => .error x
    | .ok (.error e) => .ok (.error e)
    | .ok (.ok time_val) => .ok (.ok (RexmtCmd.ctor time_val))


/-- The function `std::tolower` in the "C" locale, on the value of a character: the
letters `A` to `Z` go to `a` to `z`, every other value is returned unchanged. -/
def tolower (c : Nat) : Nat :=
  if 65 ≤ c ∧ c ≤ 90 then c + 32 else c

/-- The class `ModeCmd`. -/
structure ModeCmd where
  mode_ : Mode
  deriving DecidableEq, Repr

/-- The constructor `ModeCmd(mode)`. -/
def ModeCmd.ctor (mode : Mode) : ModeCmd := { mode_ := mode }
/-- The accessor `Mode()`. -/
def ModeCmd.Mode (c : ModeCmd) : Mode := c.mode_

/-- The factory `ModeCmd::Create` of `cmd.cpp`. The constants `SendMode::kNetAscii` and
`SendMode::kOctet` are declared in `common/types.h`, which is not among the sources:
they are the parameters `kNetAscii` and `kOctet`. -/
def ModeCmd.Create (kNetAscii kOctet : tftp.Mode) (cmdline : String) : ExpectedCmd ModeCmd :=
  let args := Tokenize cmdline
  if args.length ≠ 2 then .error .kInvalidNumArgs
  else
    let mode_lower : String :=
      String.mk ((args.getD 1 "").data.map fun c => Char.ofNat (tolower c.toNat))
    if mode_lower ≠ kNetAscii ∧ mode_lower ≠ kOctet then .error .kInvalidMode
    else .ok (ModeCmd.ctor mode_lower)

/-- The class `HelpCmd`. -/
structure HelpCmd where
  target_cmd_ : Id
  deriving DecidableEq, Repr

/-- The constructor `HelpCmd(target_cmd)`. -/
def HelpCmd.ctor (target_cmd : Id) : HelpCmd := { target_cmd_ := target_cmd }
/-- The accessor `TargetCmd()`. -/
def HelpCmd.TargetCmd (c : HelpCmd) : Id := c.target_cmd_

/-- The factory `HelpCmd::Create` of `cmd.cpp`. -/
def HelpCmd.Create (cmdline : String) : ExpectedCmd HelpCmd :=
  let args := Tokenize cmdline
  if args.length ≠ 2 then .error .kInvalidNumArgs
  else .ok (HelpCmd.ctor (args.getD 1 ""))

/-- The class `LiteralCmd`: no data member. -/
structure LiteralCmd where
  deriving DecidableEq, Repr

/-- The factory `LiteralCmd::Create` of `cmd.cpp`. -/
def LiteralCmd.Create : ExpectedCmd LiteralCmd := .ok {}

/-- The class `StatusCmd`: no data member. -/
structure StatusCmd where
  deriving DecidableEq, Repr

/-- The factory `StatusCmd::Create` of `cmd.cpp`. -/
def StatusCmd.Create : ExpectedCmd StatusCmd := .ok {}

/-- The class `QuitCmd` that `cmd.cpp` and `cmd_processor.cpp` use: no data member. -/
structure QuitCmd where
  deriving DecidableEq, Repr

/-- The factory `QuitCmd::Create` of `cmd.cpp`. -/
def QuitCmd.Create : ExpectedCmd QuitCmd := .ok {}

/-- The enumeration `ExecStatus` of `cmd.h`. -/
inductive ExecStatus where
  | kSuccessfulExec
  | kNotImplemented
  | kUnknownCmdHelp
  deriving DecidableEq, Repr

/-- The table `kExecStatusToStr` of `cmd.h`. -/
def kExecStatusToStr : ExecStatus → String
  | .kSuccessfulExec => "success"
  | .kNotImplemented => "command not implemented"
  | .kUnknownCmdHelp => "cannot output help message, unknown cmd"

/-- Modelled from the spec: the table `kParseStatusToStr` of `common/parse.h`, which is
not among the sources. Section 6 of the specification gives the parse-failure texts:
invalid number of arguments, invalid timeout, invalid port number, invalid mode. -/
def kParseStatusToStr : ParseStatus → String
  | .kInvalidNumArgs => "invalid number of arguments"
  | .kInvalidTimeout => "invalid timeout"
  | .kInvalidPortNum => "invalid port number"
  | .kInvalidMode => "invalid mode"

/-- The method `ConnectCmd::Execute` of `cmd.cpp`; the configuration is not used. -/
def ConnectCmd.Execute {Config : Type} (_self : ConnectCmd) (_config : Config) : ExecStatus :=
  .kNotImplemented
/-- The method `GetCmd::Execute` of `cmd.cpp`; the configuration is not used. -/
def GetCmd.Execute {Config : Type} (_self : GetCmd) (_config : Config) : ExecStatus :=
  .kNotImplemented
/-- The method `PutCmd::Execute` of `cmd.cpp`; the configuration is not used. -/
def PutCmd.Execute {Config : Type} (_self : PutCmd) (_config : Config) : ExecStatus :=
  .kNotImplemented
/-- The method `LiteralCmd::Execute` of `cmd.cpp`; the configuration is not used. -/
def LiteralCmd.Execute {Config : Type} (_self : LiteralCmd) (_config : Config) : ExecStatus :=
  .kNotImplemented
/-- The method `ModeCmd::Execute` of `cmd.cpp`; the configuration is not used. -/
def ModeCmd.Execute {Config : Type} (_self : ModeCmd) (_config : Config) : ExecStatus :=
  .kNotImplemented
/-- The method `StatusCmd::Execute` of `cmd.cpp`; the configuration is not used. -/
def StatusCmd.Execute {Config : Type} (_self : StatusCmd) (_config : Config) : ExecStatus :=
  .kNotImplemented
/-- The method `TimeoutCmd::Execute` of `cmd.cpp`; the configuration is not used. -/
def TimeoutCmd.Execute {Config : Type} (_self : TimeoutCmd) (_config : Config) : ExecStatus :=
  .kNotImplemented
/-- The method `RexmtCmd::Execute` of `cmd.cpp`; the configuration is not used. -/
def RexmtCmd.Execute {Config : Type} (_self : RexmtCmd) (_config : Config) : ExecStatus :=
  .kNotImplemented
/-- The method `QuitCmd::Execute` of `cmd.cpp`; the configuration is not used. -/
def QuitCmd.Execute {Config : Type} (_self : QuitCmd) (_config : Config) : ExecStatus :=
  .kNotImplemented
/-- The method `HelpCmd::Execute` of `cmd.cpp`; the configuration is not used. -/
def HelpCmd.Execute {Config : Type} (_self : HelpCmd) (_config : Config) : ExecStatus :=
  .kNotImplemented

/-- The object behind a `CmdPtr`: an instance of one of the classes derived from `Cmd`. -/
inductive Cmd where
  | get (c : GetCmd)
  | put (c : PutCmd)
  | help (c : HelpCmd)
  | mode (c : ModeCmd)
  | quit (c : QuitCmd)
  | status (c : StatusCmd)
  | connect (c : ConnectCmd)
  | literal (c : LiteralCmd)
  | timeout (c : TimeoutCmd)
  | rexmt (c : RexmtCmd)
  deriving DecidableEq, Repr

/-- The virtual call `cmd->Execute(conf)`: the override of the dynamic class runs. -/
def Cmd.Execute {Config : Type} (cmd : Cmd) (conf : Config) : ExecStatus :=
  match cmd with
  | .get c => c.Execute conf
  | .put c => c.Execute conf
  | .help c => c.Execute conf
  | .mode c => c.Execute conf
  | .quit c => c.Execute conf
  | .status c => c.Execute conf
  | .connect c => c.Execute conf
  | .literal c => c.Execute conf
  | .timeout c => c.Execute conf
  | .rexmt c => c.Execute conf

namespace CmdId

/-- The constant `CmdId::kConnect` of `cmd.h`. -/
def kConnect : Id := "connect"
/-- The constant `CmdId::kGet` of `cmd.h`. -/
def kGet : Id := "get"
/-- The constant `CmdId::kPut` of `cmd.h`. -/
def kPut : Id := "put"
/-- The constant `CmdId::kLiteral` of `cmd.h`. -/
def kLiteral : Id := "literal"
/-- The constant `CmdId::kMode` of `cmd.h`. -/
def kMode : Id := "mode"
/-- The constant `CmdId::kStatus` of `cmd.h`. -/
def kStatus : Id := "status"
/-- The constant `CmdId::kTimeout` of `cmd.h`. -/
def kTimeout : Id := "timeout"
/-- The constant `CmdId::kRexmt` of `cmd.h`. -/
def kRexmt : Id := "rexmt"
/-- The constant `CmdId::kHelp` of `cmd.h`. -/
def kHelp : Id := "help"
/-- Modelled from the spec: the constant `CmdId::kQuit`, which `cmd_processor.cpp`
compares the verb with and which `cmd.h` does not declare. The specification names it
the quit variant implied by the dispatcher; like the nine declared constants it is the
verb itself. -/
def kQuit : Id := "quit"

end CmdId

/-- Modelled from the spec: the template `LoadCmd<T>` of `client/cmd_processor.h`, which
is not among the sources. It invokes the factory `T::Create` and hands the command over
as a `CmdPtr`; a parse failure or an exception of the factory passes through. -/
def LoadCmd {T : Type} (create : Except StdException (ExpectedCmd T)) (up : T → Cmd) :
    Except StdException (Except ParseStatus Cmd) :=
  match create with
  | .error x => .error x
  | .ok (.error e) => .ok (.error e)
  | .ok (.ok c) => .ok (.ok (up c))

/-- The extraction `is >> cmd_id` of `CmdProcessor::Exec`: the first token of the line,
and the empty string when the line has none. -/
def ReadId (cmdline : String) : Id :=
  match extractTokens [] (c_str cmdline.data) with
  | [] => ""
  | t :: _ => String.mk t

/-- What one call of `CmdProcessor::Exec` did: the verb whose factory `LoadCmd` invoked
(if any), whether `Execute` was called, and the lines written to `std::cout`. -/
structure ExecTrace where
  factory : Option Id
  executed : Bool
  out : List String
  deriving DecidableEq, Repr

/-- The line `CmdProcessor::PrintError` writes to `std::cout`. -/
def CmdProcessor.PrintError (err_msg : String) : String :=
  "error: " ++ err_msg

/-- The chain of comparisons of `CmdProcessor::Exec` that creates the command object;
`none` is the final `else`, where no factory is invoked. -/
def CmdProcessor.CreateCmd (kNetAscii kOctet : Mode) (cmd_id : Id) (cmdline : String) :
    Option (Except StdException (Except ParseStatus Cmd)) :=
  if cmd_id = CmdId.kGet then some (LoadCmd (.ok (GetCmd.Create cmdline)) Cmd.get)
  else if cmd_id = CmdId.kPut then some (LoadCmd (.ok (PutCmd.Create cmdline)) Cmd.put)
  else if cmd_id = CmdId.kHelp then some (LoadCmd (.ok (HelpCmd.Create cmdline)) Cmd.help)
  else if cmd_id = CmdId.kMode then
    some (LoadCmd (.ok (ModeCmd.Create kNetAscii kOctet cmdline)) Cmd.mode)
  else if cmd_id = CmdId.kQuit then some (LoadCmd (.ok QuitCmd.Create) Cmd.quit)
  else if cmd_id = CmdId.kStatus then some (LoadCmd (.ok StatusCmd.Create) Cmd.status)
  else if cmd_id = CmdId.kConnect then some (LoadCmd (ConnectCmd.Create cmdline) Cmd.connect)
  else if cmd_id = CmdId.kLiteral then some (LoadCmd (.ok LiteralCmd.Create) Cmd.literal)
  else if cmd_id = CmdId.kTimeout then some (LoadCmd (TimeoutCmd.Create cmdline) Cmd.timeout)
  else if cmd_id = CmdId.kRexmt then some (LoadCmd (RexmtCmd.Create cmdline) Cmd.rexmt)
  else none

/-- The method `CmdProcessor::Exec` of `cmd_processor.cpp`, with the configuration
`conf_` of the processor. An exception of a factory leaves `Exec`. -/
def CmdProcessor.Exec {Config : Type} (kNetAscii kOctet : Mode) (conf_ : Config)
    (cmdline : String) : Except StdException ExecTrace :=
  let cmd_id := ReadId cmdline
  match CmdProcessor.CreateCmd kNetAscii kOctet cmd_id cmdline with
  | none =>
    .ok { factory := none, executed := false,
          out := [CmdProcessor.PrintError ("unknown command \x27" ++ cmd_id ++ "\x27")] }
  | some (.error x) => .error x
  | some (.ok (.error e)) =>
    .ok { factory := some cmd_id, executed := false,
          out := [CmdProcessor.PrintError (kParseStatusToStr e)] }
  | some (.ok (.ok cmd)) =>
    let exec_stat := cmd.Execute conf_
    .ok { factory := some cmd_id, executed := true,
          out := if exec_stat ≠ .kSuccessfulExec
            then [CmdProcessor.PrintError (kExecStatusToStr exec_stat)] else [] }

/-! Notions the claims are stated with -/

/-- The nine verb identifiers `cmd.h` declares in the namespace `CmdId`. -/
def recognizedVerbs : List Id :=
  [CmdId.kConnect, CmdId.kGet, CmdId.kPut, CmdId.kLiteral, CmdId.kMode, CmdId.kStatus,
   CmdId.kTimeout, CmdId.kRexmt, CmdId.kHelp]

/-- The ASCII lower-casing of a string: `A`..`Z` become `a`..`z`, character by
character. -/
def asciiLower (m : String) : String :=
  String.mk (m.data.map Char.toLower)

/-- The line a report of an unknown command starts with. -/
def unknownCommandLine : String := "error: unknown command"

/-- What `Exec` has to do with the outcome of the factory of the verb it read: after a
constructed command it executes it and writes `error: command not implemented`; after
a parse failure `e` it executes nothing and writes `error: ` followed by the text of
`e`; an exception of the factory leaves `Exec`. -/
def ReportsOutcome {T : Type} (result : Except StdException ExecTrace) (verb : Id)
    (outcome : Except StdException (ExpectedCmd T)) : Prop :=
  (∀ c : T, outcome = .ok (.ok c) →
    result = .ok ⟨some verb, true, ["error: command not implemented"]⟩) ∧
  (∀ e : ParseStatus, outcome = .ok (.error e) →
    result = .ok ⟨some verb, false, ["error: " ++ kParseStatusToStr e]⟩) ∧
  (∀ x : StdException, outcome = .error x → result = .error x)

/-- Every character of the string is an ASCII decimal digit `'0'..'9'`. -/
def AllDigits (d : String) : Prop :=
  ∀ c ∈ d.data, '0' ≤ c ∧ c ≤ '9'

/-- The number a string of decimal digits spells, most significant digit first
(leading zeros allowed). -/
def decimalValue (d : String) : Nat :=
  Nat.ofDigits 10 (d.data.reverse.map fun c => c.toNat - '0'.toNat)

/-! Tokens, digits and `stoull` -/

theorem isdigit_iff (c : Char) : isdigit c = true ↔ '0' ≤ c ∧ c ≤ '9' := by
  simp only [isdigit, Bool.and_eq_true, decide_eq_true_eq]
  exact Iff.rfl

theorem isdigit_not_isspace {c : Char} (h : isdigit c = true) : isspace c = false := by
  simp only [isdigit, Bool.and_eq_true, decide_eq_true_eq] at h
  simp only [isspace, Bool.or_eq_false_iff, Bool.and_eq_false_iff, decide_eq_false_iff_not]
  omega

theorem isdigit_not_nul {c : Char} (h : isdigit c = true) : c.toNat ≠ 0 := by
  simp only [isdigit, Bool.and_eq_true, decide_eq_true_eq] at h
  omega

theorem c_str_eq_self {s : List Char} (h : ∀ c ∈ s, c.toNat ≠ 0) : c_str s = s := by
  unfold c_str
  rw [List.takeWhile_eq_self_iff]
  intro c hc
  simpa using h c hc

/-- A run of characters without whitespace is read into the token under construction. -/
theorem extractTokens_word (t : List Char) (h : ∀ c ∈ t, isspace c = false) :
    ∀ cur : List Char, extractTokens cur t = if (cur ++ t).isEmpty then [] else [cur ++ t] := by
  induction t with
  | nil => intro cur; simp [extractTokens]
  | cons c cs ih =>
    intro cur
    have hc : isspace c = false := h c (List.mem_cons_self _ _)
    have hcs : ∀ x ∈ cs, isspace x = false := fun x hx => h x (List.mem_cons_of_mem _ hx)
    simp [extractTokens, hc, ih hcs]

/-- No token that `operator>>` extracts is empty. -/
theorem extractTokens_ne_nil (s : List Char) :
    ∀ cur : List Char, ∀ t ∈ extractTokens cur s, t ≠ [] := by
  induction s with
  | nil =>
    intro cur t ht
    by_cases hcur : cur = []
    · simp [extractTokens, hcur] at ht
    · simp [extractTokens, hcur] at ht
      rw [ht]; exact hcur
  | cons c cs ih =>
    intro cur t ht
    by_cases hc : isspace c = true
    · by_cases hcur : cur = []
      · simp [extractTokens, hc, hcur] at ht
        exact ih [] t ht
      · simp [extractTokens, hc, hcur] at ht
        rcases ht with ht | ht
        · rw [ht]; exact hcur
        · exact ih [] t ht
    · simp [extractTokens, hc] at ht
      exact ih _ t ht

theorem Tokenize_ne_empty (cmdline t : String) (h : t ∈ Tokenize cmdline) : t.data ≠ [] := by
  simp only [Tokenize, List.mem_map] at h
  obtain ⟨l, hl, rfl⟩ := h
  exact extractTokens_ne_nil _ _ l hl

/-- The loop of `strtoull` computes the number the digits spell. -/
theorem accumulate_eq (ds : List Char) :
    accumulate ds = Nat.ofDigits 10 (ds.reverse.map fun c => c.toNat - '0'.toNat) := by
  have key : ∀ (l : List Char) (acc : Nat),
      l.foldl (fun acc c => acc * 10 + digitVal c) acc =
        acc * 10 ^ l.length + Nat.ofDigits 10 (l.reverse.map fun c => c.toNat - '0'.toNat) := by
    intro l
    induction l with
    | nil => intro acc; simp
    | cons c cs ih =>
      intro acc
      rw [List.foldl_cons, ih]
      simp only [List.reverse_cons, List.map_append, List.map_cons,
        List.map_nil, Nat.ofDigits_append, Nat.ofDigits_singleton, List.length_map,
        List.length_reverse, List.length_cons, digitVal]
      have h0 : '0'.toNat = 48 := by decide
      rw [h0]
      ring
  simpa [accumulate] using key ds 0

/-- On a non-empty string of digits `std::stoull` throws `std::out_of_range` when the
number exceeds `ULLONG_MAX` and returns the number otherwise. -/
theorem stoull_digits (d : String) (hne : d.data ≠ []) (hd : AllDigits d) :
    stoull d =
      if decimalValue d > ULLONG_MAX then .error .out_of_range else .ok (decimalValue d) := by
  have hdig : ∀ c ∈ d.data, isdigit c = true := fun c hc => (isdigit_iff c).2 (hd c hc)
  have hcs : c_str d.data = d.data := c_str_eq_self fun c hc => isdigit_not_nul (hdig c hc)
  obtain ⟨c, cs, hcons⟩ : ∃ c cs, d.data = c :: cs := by
    cases hdd : d.data with
    | nil => exact absurd hdd hne
    | cons c cs => exact ⟨c, cs, rfl⟩
  have hc : isdigit c = true := hdig c (by rw [hcons]; exact List.mem_cons_self _ _)
  have hsp : (c :: cs).dropWhile isspace = c :: cs := by
    simp [List.dropWhile, isdigit_not_isspace hc]
  have hminus : c ≠ '-' := by
    intro e; rw [e] at hc; revert hc; decide
  have hplus : c ≠ '+' := by
    intro e; rw [e] at hc; revert hc; decide
  have htake : (c :: cs).takeWhile isdigit = c :: cs := by
    rw [List.takeWhile_eq_self_iff]
    intro x hx
    exact hdig x (by rw [hcons]; exact hx)
  have hacc : accumulate (c :: cs) = decimalValue d := by
    rw [accumulate_eq, decimalValue, hcons]
  unfold stoull
  rw [hcs, hcons, hsp]
  simp [hminus, hplus, htake, hacc]

/-- On a non-empty string of digits `ParseTimeValue` has three outcomes. -/
theorem ParseTimeValue_digits (d : String) (hne : d.data ≠ []) (hd : AllDigits d) :
    ParseTimeValue d =
      if decimalValue d > ULLONG_MAX then .error .out_of_range
      else if decimalValue d > UINT32_MAX then .ok (.error .kInvalidTimeout)
      else .ok (.ok (decimalValue d)) := by
  have hpos : IsPositiveNum d = true := by
    simp only [IsPositiveNum, List.all_eq_true]
    exact fun c hc => (isdigit_iff c).2 (hd c hc)
  unfold ParseTimeValue
  rw [stoull_digits d hne hd, hpos]
  by_cases h1 : decimalValue d > ULLONG_MAX
  · simp [h1]
  · by_cases h2 : decimalValue d > UINT32_MAX
    · simp [h1, h2]
    · have hmax : UINT32_MAX = 4294967295 := by decide
      have h3 : decimalValue d % 4294967296 = decimalValue d := by
        apply Nat.mod_eq_of_lt
        rw [hmax] at h2
        omega
      simp only [h1, h2, toSeconds, if_false, Bool.not_true, Bool.false_eq_true]
      norm_num [h3]

/-- A token with a character that is not a digit fails the digit check. -/
theorem IsPositiveNum_eq_false {t : String} (h : ∃ c ∈ t.data, ¬ ('0' ≤ c ∧ c ≤ '9')) :
    IsPositiveNum t = false := by
  obtain ⟨c, hc, hnd⟩ := h
  rw [← isdigit_iff] at hnd
  rw [Bool.eq_false_iff]
  intro hall
  simp only [IsPositiveNum, List.all_eq_true] at hall
  exact hnd (hall c hc)

/-- The line made of a verb without whitespace, one blank and a non-empty string of
digits tokenizes to the verb and the digits. -/
theorem Tokenize_verb_digits (verb d : String) (hv : verb.data ≠ [])
    (hverb : ∀ c ∈ verb.data, isspace c = false ∧ c.toNat ≠ 0)
    (hne : d.data ≠ []) (hd : AllDigits d) :
    Tokenize (verb ++ " " ++ d) = [verb, d] := by
  have hdig : ∀ c ∈ d.data, isdigit c = true := fun c hc => (isdigit_iff c).2 (hd c hc)
  have hdata : (verb ++ " " ++ d).data = verb.data ++ ' ' :: d.data := by
    simp [String.data_append]
  have hcs : c_str (verb.data ++ ' ' :: d.data) = verb.data ++ ' ' :: d.data := by
    apply c_str_eq_self
    intro c hc
    rcases List.mem_append.1 hc with h | h
    · exact (hverb c h).2
    · rcases List.mem_cons.1 h with h | h
      · rw [h]; decide
      · exact isdigit_not_nul (hdig c h)
  have hsplit : ∀ (w cur : List Char), (∀ c ∈ w, isspace c = false) → (cur ++ w) ≠ [] →
      extractTokens cur (w ++ ' ' :: d.data) = [cur ++ w, d.data] := by
    intro w
    induction w with
    | nil =>
      intro cur _ hcur
      have hsp : isspace ' ' = true := by decide
      have hcur2 : cur ≠ [] := by simpa using hcur
      have hword := extractTokens_word d.data (fun c hc => isdigit_not_isspace (hdig c hc)) []
      simp [extractTokens, hsp, hcur2, hword, hne]
    | cons c cs ih =>
      intro cur hw _
      have hc : isspace c = false := hw c (List.mem_cons_self _ _)
      have hrest := ih (cur ++ [c]) (fun x hx => hw x (List.mem_cons_of_mem _ hx)) (by simp)
      simp [extractTokens, hc, hrest]
  unfold Tokenize
  rw [hdata, hcs, hsplit verb.data [] (fun c hc => (hverb c hc).1) (by simpa using hv)]
  simp

/-! `get` and `put` -/

/-- C1: a line that tokenizes to exactly three tokens `[v, a, b]` makes `GetCmd::Create`
succeed with remote file `a`, local file `b` and an empty file list. -/
theorem GetCmd_Create_remote_local_pair (cmdline v a b : String)
    (h : Tokenize cmdline = [v, a, b]) :
    ∃ c, GetCmd.Create cmdline = .ok c ∧
      c.RemoteFile = a ∧ c.LocalFile = b ∧ c.Files = [] := by
  refine ⟨GetCmd.ctor a b [], ?_, rfl, rfl, rfl⟩
  simp [GetCmd.Create, h]

theorem GetCmd_Create_remote_local_pair_witness :
    Tokenize "get a b" = ["get", "a", "b"] ∧
    ∃ c, GetCmd.Create "get a b" = .ok c ∧
      c.RemoteFile = "a" ∧ c.LocalFile = "b" ∧ c.Files = [] :=
  ⟨by decide, GetCmd_Create_remote_local_pair "get a b" "get" "a" "b" (by decide)⟩

/-- C2: a line that tokenizes to a verb followed by `n ≥ 3` argument tokens makes
`GetCmd::Create` succeed with the file list equal to exactly those argument tokens in
order, and with empty remote and local file names. -/
theorem GetCmd_Create_file_list (cmdline v : String) (as : List String)
    (h : Tokenize cmdline = v :: as) (hn : 3 ≤ as.length) :
    ∃ c, GetCmd.Create cmdline = .ok c ∧
      c.Files = as ∧ c.RemoteFile = "" ∧ c.LocalFile = "" := by
  refine ⟨GetCmd.ctor "" "" as, ?_, rfl, rfl, rfl⟩
  have h1 : ¬ as.length = 1 := by omega
  have h2 : ¬ as.length = 2 := by omega
  have h3 : as.length > 2 := by omega
  have h0 : ¬ as.length + 1 ≤ 1 := by omega
  simp [GetCmd.Create, h, h0, h1, h2, h3]

theorem GetCmd_Create_file_list_witness :
    Tokenize "get a b c" = "get" :: ["a", "b", "c"] ∧ 3 ≤ ["a", "b", "c"].length ∧
    ∃ c, GetCmd.Create "get a b c" = .ok c ∧
      c.Files = ["a", "b", "c"] ∧ c.RemoteFile = "" ∧ c.LocalFile = "" :=
  ⟨by decide, by decide,
    GetCmd_Create_file_list "get a b c" "get" ["a", "b", "c"] (by decide) (by decide)⟩

/-- C3 as stated fails: `get file.txt` tokenizes to two tokens, and the constructed
command has an empty remote file name and the file list `["file.txt"]`. -/
theorem GetCmd_Create_single_not_remote :
    ¬ (∀ cmdline v x : String, Tokenize cmdline = [v, x] →
        ∃ c, GetCmd.Create cmdline = .ok c ∧
          c.RemoteFile = x ∧ c.LocalFile = "" ∧ c.Files = []) := by
  intro h
  obtain ⟨c, hc, hr, -, -⟩ := h "get file.txt" "get" "file.txt" (by decide)
  have hc2 : GetCmd.Create "get file.txt" = .ok (GetCmd.ctor "" "" ["file.txt"]) := by decide
  rw [hc2] at hc
  cases hc
  revert hr
  decide

/-- C3, amended: a line that tokenizes to exactly two tokens `[v, x]` makes
`GetCmd::Create` succeed with the file list `[x]` and with empty remote and local
file names. -/
theorem GetCmd_Create_single_file (cmdline v x : String)
    (h : Tokenize cmdline = [v, x]) :
    ∃ c, GetCmd.Create cmdline = .ok c ∧
      c.Files = [x] ∧ c.RemoteFile = "" ∧ c.LocalFile = "" := by
  refine ⟨GetCmd.ctor "" "" [x], ?_, rfl, rfl, rfl⟩
  simp [GetCmd.Create, h]

theorem GetCmd_Create_single_file_witness :
    Tokenize "get file.txt" = ["get", "file.txt"] ∧
    ∃ c, GetCmd.Create "get file.txt" = .ok c ∧
      c.Files = ["file.txt"] ∧ c.RemoteFile = "" ∧ c.LocalFile = "" :=
  ⟨by decide, GetCmd_Create_single_file "get file.txt" "get" "file.txt" (by decide)⟩

/-- C4: a line that tokenizes to a verb followed by `n ≥ 3` argument tokens
`a_1 .. a_(n-1), a_n` makes `PutCmd::Create` succeed with remote directory `a_n`, file
list `[a_1, .., a_(n-1)]` (of length `n - 1`), and empty local and remote file names. -/
theorem PutCmd_Create_files_to_dir (cmdline v dir : String) (front : List String)
    (h : Tokenize cmdline = v :: (front ++ [dir])) (hn : 3 ≤ (front ++ [dir]).length) :
    ∃ c, PutCmd.Create cmdline = .ok c ∧
      c.RemoteDir = dir ∧ c.Files = front ∧
      c.Files.length = (front ++ [dir]).length - 1 ∧
      c.LocalFile = "" ∧ c.RemoteFile = "" := by
  refine ⟨PutCmd.ctor "" "" dir front, ?_, rfl, rfl, by simp [PutCmd.Files, PutCmd.ctor],
    rfl, rfl⟩
  have hl : (front ++ [dir]).length = front.length + 1 := by simp
  rw [hl] at hn
  have h1 : ¬ front.length + 1 = 1 := by omega
  have h2 : ¬ front.length + 1 = 2 := by omega
  have h3 : front.length + 1 > 2 := by omega
  have h0 : ¬ front.length + 1 + 1 ≤ 1 := by omega
  simp [PutCmd.Create, h, h0, h1, h2, h3, List.getLastD_concat]

theorem PutCmd_Create_files_to_dir_witness :
    Tokenize "put a b c" = "put" :: (["a", "b"] ++ ["c"]) ∧
    3 ≤ (["a", "b"] ++ ["c"]).length ∧
    ∃ c, PutCmd.Create "put a b c" = .ok c ∧
      c.RemoteDir = "c" ∧ c.Files = ["a", "b"] ∧
      c.Files.length = (["a", "b"] ++ ["c"]).length - 1 ∧
      c.LocalFile = "" ∧ c.RemoteFile = "" :=
  ⟨by decide, by decide,
    PutCmd_Create_files_to_dir "put a b c" "put" "c" ["a", "b"] (by decide) (by decide)⟩

/-- C5: a line that tokenizes to exactly three tokens `[v, a, b]` makes
`PutCmd::Create` succeed, and the accessors of the command give `LocalFile() = a`,
`RemoteFile() = b`, an empty remote directory and an empty file list. -/
theorem PutCmd_Create_local_remote_pair (cmdline v a b : String)
    (h : Tokenize cmdline = [v, a, b]) :
    ∃ c, PutCmd.Create cmdline = .ok c ∧
      c.LocalFile = a ∧ c.RemoteFile = b ∧ c.RemoteDir = "" ∧ c.Files = [] := by
  refine ⟨PutCmd.ctor b a "" [], ?_, rfl, rfl, rfl, rfl⟩
  simp [PutCmd.Create, h]

theorem PutCmd_Create_local_remote_pair_witness :
    Tokenize "put a b" = ["put", "a", "b"] ∧
    ∃ c, PutCmd.Create "put a b" = .ok c ∧
      c.LocalFile = "a" ∧ c.RemoteFile = "b" ∧ c.RemoteDir = "" ∧ c.Files = [] :=
  ⟨by decide, PutCmd_Create_local_remote_pair "put a b" "put" "a" "b" (by decide)⟩

/-- C6: `GetCmd::Create` and `PutCmd::Create` each fail exactly when the line
tokenizes to fewer than two tokens, and each either succeeds or returns
`InvalidNumArgs`: no other parse status comes out of either factory. -/
theorem GetCmd_PutCmd_Create_fail_iff (cmdline : String) :
    ((∃ e, GetCmd.Create cmdline = .error e) ↔ (Tokenize cmdline).length < 2) ∧
    (GetCmd.Create cmdline = .error .kInvalidNumArgs ∨ ∃ c, GetCmd.Create cmdline = .ok c) ∧
    ((∃ e, PutCmd.Create cmdline = .error e) ↔ (Tokenize cmdline).length < 2) ∧
    (PutCmd.Create cmdline = .error .kInvalidNumArgs ∨ ∃ c, PutCmd.Create cmdline = .ok c) := by
  by_cases hlen : (Tokenize cmdline).length ≤ 1
  · have hg : GetCmd.Create cmdline = .error .kInvalidNumArgs := by
      simp [GetCmd.Create, hlen]
    have hp : PutCmd.Create cmdline = .error .kInvalidNumArgs := by
      simp [PutCmd.Create, hlen]
    have hlt : (Tokenize cmdline).length < 2 := by omega
    exact ⟨⟨fun _ => hlt, fun _ => ⟨_, hg⟩⟩, Or.inl hg,
      ⟨fun _ => hlt, fun _ => ⟨_, hp⟩⟩, Or.inl hp⟩
  · have hg : ∃ c, GetCmd.Create cmdline = .ok c := by
      simp [GetCmd.Create, hlen]
    have hp : ∃ c, PutCmd.Create cmdline = .ok c := by
      simp [PutCmd.Create, hlen]
    obtain ⟨cg, hcg⟩ := hg
    obtain ⟨cp, hcp⟩ := hp
    have hge : ¬ (Tokenize cmdline).length < 2 := by omega
    refine ⟨⟨?_, fun hl => absurd hl hge⟩, Or.inr ⟨cg, hcg⟩,
      ⟨?_, fun hl => absurd hl hge⟩, Or.inr ⟨cp, hcp⟩⟩
    · rintro ⟨e, he⟩
      rw [hcg] at he
      cases he
    · rintro ⟨e, he⟩
      rw [hcp] at he
      cases he

/-! `timeout` and `rexmt` -/

/-- The three outcomes of `TimeoutCmd::Create` on a verb and a token of digits. -/
theorem TimeoutCmd_Create_digits (cmdline v d : String)
    (h : Tokenize cmdline = [v, d]) (hd : AllDigits d) :
    TimeoutCmd.Create cmdline =
      if decimalValue d > ULLONG_MAX then .error .out_of_range
      else if decimalValue d > UINT32_MAX then .ok (.error .kInvalidTimeout)
      else .ok (.ok (TimeoutCmd.ctor (decimalValue d))) := by
  have hne : d.data ≠ [] := Tokenize_ne_empty cmdline d (by simp [h])
  simp only [TimeoutCmd.Create, h, List.length_cons, List.length_nil, List.getD_cons_succ,
    List.getD_cons_zero, ParseTimeValue_digits d hne hd]
  by_cases h1 : decimalValue d > ULLONG_MAX
  · simp [h1]
  · by_cases h2 : decimalValue d > UINT32_MAX <;> simp [h1, h2]

/-- The three outcomes of `RexmtCmd::Create` on a verb and a token of digits. -/
theorem RexmtCmd_Create_digits (cmdline v d : String)
    (h : Tokenize cmdline = [v, d]) (hd : AllDigits d) :
    RexmtCmd.Create cmdline =
      if decimalValue d > ULLONG_MAX then .error .out_of_range
      else if decimalValue d > UINT32_MAX then .ok (.error .kInvalidTimeout)
      else .ok (.ok (RexmtCmd.ctor (decimalValue d))) := by
  have hne : d.data ≠ [] := Tokenize_ne_empty cmdline d (by simp [h])
  simp only [RexmtCmd.Create, h, List.length_cons, List.length_nil, List.getD_cons_succ,
    List.getD_cons_zero, ParseTimeValue_digits d hne hd]
  by_cases h1 : decimalValue d > ULLONG_MAX
  · simp [h1]
  · by_cases h2 : decimalValue d > UINT32_MAX <;> simp [h1, h2]

/-- A value above the unsigned 32-bit maximum that still fits `unsigned long long` is
rejected with `InvalidTimeout` by both factories. -/
theorem Create_timeout_above_UINT32_MAX (cmdline v d : String)
    (h : Tokenize cmdline = [v, d]) (hd : AllDigits d)
    (hlo : 4294967295 < decimalValue d) (hhi : decimalValue d ≤ 18446744073709551615) :
    TimeoutCmd.Create cmdline = .ok (.error .kInvalidTimeout) ∧
    RexmtCmd.Create cmdline = .ok (.error .kInvalidTimeout) := by
  have h1 : ¬ decimalValue d > ULLONG_MAX := by
    have : ULLONG_MAX = 18446744073709551615 := by decide
    omega
  have h2 : decimalValue d > UINT32_MAX := by
    have : UINT32_MAX = 4294967295 := by decide
    omega
  rw [TimeoutCmd_Create_digits cmdline v d h hd, RexmtCmd_Create_digits cmdline v d h hd]
  simp [h1, h2]

/-- A value above `ULLONG_MAX` makes `std::stoull` throw `std::out_of_range` inside both
factories: neither returns a parse status. -/
theorem Create_timeout_above_ULLONG_MAX (cmdline v d : String)
    (h : Tokenize cmdline = [v, d]) (hd : AllDigits d)
    (hlo : 18446744073709551615 < decimalValue d) :
    TimeoutCmd.Create cmdline = .error .out_of_range ∧
    RexmtCmd.Create cmdline = .error .out_of_range := by
  have h1 : decimalValue d > ULLONG_MAX := by
    have : ULLONG_MAX = 18446744073709551615 := by decide
    omega
  rw [TimeoutCmd_Create_digits cmdline v d h hd, RexmtCmd_Create_digits cmdline v d h hd]
  simp [h1]

/-- C7, the code at the failing input: `timeout 18446744073709551616` and
`rexmt 18446744073709551616` have two tokens, the second all digits with value `2 ^ 64`,
above 4294967295; both factories leave through `std::out_of_range` instead of returning
`InvalidTimeout`. -/
theorem Create_timeout_two_pow_64_throws :
    Tokenize "timeout 18446744073709551616" = ["timeout", "18446744073709551616"] ∧
    Tokenize "rexmt 18446744073709551616" = ["rexmt", "18446744073709551616"] ∧
    AllDigits "18446744073709551616" ∧
    decimalValue "18446744073709551616" = 2 ^ 64 ∧
    TimeoutCmd.Create "timeout 18446744073709551616" = .error .out_of_range ∧
    RexmtCmd.Create "rexmt 18446744073709551616" = .error .out_of_range ∧
    TimeoutCmd.Create "timeout 18446744073709551616" ≠ .ok (.error .kInvalidTimeout) ∧
    RexmtCmd.Create "rexmt 18446744073709551616" ≠ .ok (.error .kInvalidTimeout) := by
  refine ⟨by decide, by decide, ?_, by decide, by decide, by decide, by decide, by decide⟩
  intro c hc
  simp only [List.mem_cons, List.mem_singleton, List.not_mem_nil, or_false] at hc
  rcases hc with h | h | h | h | h | h | h | h | h | h | h | h | h | h | h | h | h | h | h | h <;>
    (rw [h]; decide)

/-- C8: for `n ≤ 4294967295` and a decimal spelling `d` of `n` (non-empty, digits only,
leading zeros allowed) the lines `timeout d` and `rexmt d` parse successfully and the
command holds exactly `n` seconds. -/
theorem Create_timeout_value (n : Nat) (d : String) (hn : n ≤ 4294967295)
    (hne : d ≠ "") (hd : AllDigits d) (hv : decimalValue d = n) :
    (∃ c, TimeoutCmd.Create ("timeout" ++ " " ++ d) = .ok (.ok c) ∧ c.Timeout = n) ∧
    (∃ c, RexmtCmd.Create ("rexmt" ++ " " ++ d) = .ok (.ok c) ∧ c.RexmtTimeout = n) := by
  have hdne : d.data ≠ [] := fun e => hne (String.ext e)
  have h1 : ¬ decimalValue d > ULLONG_MAX := by
    have : ULLONG_MAX = 18446744073709551615 := by decide
    omega
  have h2 : ¬ decimalValue d > UINT32_MAX := by
    have : UINT32_MAX = 4294967295 := by decide
    omega
  have ht : Tokenize ("timeout" ++ " " ++ d) = ["timeout", d] :=
    Tokenize_verb_digits "timeout" d (by decide) (by decide) hdne hd
  have hr : Tokenize ("rexmt" ++ " " ++ d) = ["rexmt", d] :=
    Tokenize_verb_digits "rexmt" d (by decide) (by decide) hdne hd
  refine ⟨⟨TimeoutCmd.ctor n, ?_, rfl⟩, ⟨RexmtCmd.ctor n, ?_, rfl⟩⟩
  · rw [TimeoutCmd_Create_digits _ _ d ht hd, if_neg h1, if_neg h2, hv]
  · rw [RexmtCmd_Create_digits _ _ d hr hd, if_neg h1, if_neg h2, hv]

theorem Create_timeout_value_witness :
    (42 ≤ 4294967295 ∧ "0042" ≠ "" ∧ AllDigits "0042" ∧ decimalValue "0042" = 42) ∧
    (∃ c, TimeoutCmd.Create ("timeout" ++ " " ++ "0042") = .ok (.ok c) ∧ c.Timeout = 42) ∧
    (∃ c, RexmtCmd.Create ("rexmt" ++ " " ++ "0042") = .ok (.ok c) ∧ c.RexmtTimeout = 42) :=
  have hd : AllDigits "0042" := by
    intro c hc
    simp only [List.mem_cons, List.mem_singleton, List.not_mem_nil, or_false] at hc
    rcases hc with h | h | h | h <;> (rw [h]; decide)
  ⟨⟨by decide, by decide, hd, by decide⟩,
    Create_timeout_value 42 "0042" (by decide) (by decide) hd (by decide)⟩

/-- C9: with exactly two tokens of which the second has a character that is not an
ASCII decimal digit, `TimeoutCmd::Create` and `RexmtCmd::Create` both fail with
`InvalidTimeout`; with any other token count they both fail with `InvalidNumArgs`. -/
theorem Create_timeout_rejects :
    (∀ cmdline v t : String, Tokenize cmdline = [v, t] →
      (∃ c ∈ t.data, ¬ ('0' ≤ c ∧ c ≤ '9')) →
      TimeoutCmd.Create cmdline = .ok (.error .kInvalidTimeout) ∧
      RexmtCmd.Create cmdline = .ok (.error .kInvalidTimeout)) ∧
    (∀ cmdline : String, (Tokenize cmdline).length ≠ 2 →
      TimeoutCmd.Create cmdline = .ok (.error .kInvalidNumArgs) ∧
      RexmtCmd.Create cmdline = .ok (.error .kInvalidNumArgs)) := by
  constructor
  · intro cmdline v t h hbad
    have hpos := IsPositiveNum_eq_false hbad
    simp [TimeoutCmd.Create, RexmtCmd.Create, h, ParseTimeValue, hpos]
  · intro cmdline hlen
    simp [TimeoutCmd.Create, RexmtCmd.Create, hlen]

theorem Create_timeout_rejects_witness :
    (TimeoutCmd.Create "timeout -1" = .ok (.error .kInvalidTimeout) ∧
      RexmtCmd.Create "timeout -1" = .ok (.error .kInvalidTimeout)) ∧
    (TimeoutCmd.Create "rexmt +5" = .ok (.error .kInvalidTimeout) ∧
      RexmtCmd.Create "rexmt +5" = .ok (.error .kInvalidTimeout)) ∧
    (TimeoutCmd.Create "timeout" = .ok (.error .kInvalidNumArgs) ∧
      RexmtCmd.Create "timeout" = .ok (.error .kInvalidNumArgs)) ∧
    (TimeoutCmd.Create "rexmt 1 x" = .ok (.error .kInvalidNumArgs) ∧
      RexmtCmd.Create "rexmt 1 x" = .ok (.error .kInvalidNumArgs)) :=
  ⟨Create_timeout_rejects.1 "timeout -1" "timeout" "-1" (by decide)
      ⟨'-', by decide, by decide⟩,
    Create_timeout_rejects.1 "rexmt +5" "rexmt" "+5" (by decide)
      ⟨'+', by decide, by decide⟩,
    Create_timeout_rejects.2 "timeout" (by decide),
    Create_timeout_rejects.2 "rexmt 1 x" (by decide)⟩

/-! `connect` -/

/-- C10: with exactly two tokens `[v, h]` `ConnectCmd::Create` succeeds with host `h`
and port 0; with exactly three tokens `[v, h, p]`, `p` all decimal digits with value at
most 65535, it succeeds with host `h` and port the value of `p`. -/
theorem ConnectCmd_Create_echo :
    (∀ cmdline v h : String, Tokenize cmdline = [v, h] →
      ∃ c, ConnectCmd.Create cmdline = .ok (.ok c) ∧ c.Host = h ∧ c.Port = 0) ∧
    (∀ cmdline v h p : String, Tokenize cmdline = [v, h, p] →
      AllDigits p → decimalValue p ≤ 65535 →
      ∃ c, ConnectCmd.Create cmdline = .ok (.ok c) ∧ c.Host = h ∧
        c.Port = decimalValue p) := by
  constructor
  · intro cmdline v h htok
    refine ⟨ConnectCmd.ctor h 0, ?_, rfl, rfl⟩
    simp [ConnectCmd.Create, htok]
  · intro cmdline v h p htok hd hval
    refine ⟨ConnectCmd.ctor h (decimalValue p), ?_, rfl, rfl⟩
    have hne : p.data ≠ [] := Tokenize_ne_empty cmdline p (by simp [htok])
    have hpos : IsPositiveNum p = true := by
      simp only [IsPositiveNum, List.all_eq_true]
      exact fun c hc => (isdigit_iff c).2 (hd c hc)
    have h1 : ¬ decimalValue p > ULLONG_MAX := by
      have : ULLONG_MAX = 18446744073709551615 := by decide
      omega
    have h2 : ¬ decimalValue p > UINT16_MAX := by
      have : UINT16_MAX = 65535 := by decide
      omega
    have h3 : decimalValue p % 65536 = decimalValue p := Nat.mod_eq_of_lt (by omega)
    have hst : stoull p = .ok (decimalValue p) := by
      rw [stoull_digits p hne hd]
      simp [h1]
    simp only [ConnectCmd.Create, htok, List.length_cons, List.length_nil,
      List.getD_cons_succ, List.getD_cons_zero, hpos, hst]
    norm_num [h2, h3]

theorem ConnectCmd_Create_echo_witness :
    (∃ c, ConnectCmd.Create "connect example.org" = .ok (.ok c) ∧
      c.Host = "example.org" ∧ c.Port = 0) ∧
    (∃ c, ConnectCmd.Create "connect example.org 069" = .ok (.ok c) ∧
      c.Host = "example.org" ∧ c.Port = decimalValue "069") ∧
    decimalValue "069" = 69 :=
  have hd : AllDigits "069" := by
    intro c hc
    simp only [List.mem_cons, List.mem_singleton, List.not_mem_nil, or_false] at hc
    rcases hc with h | h | h <;> (rw [h]; decide)
  ⟨ConnectCmd_Create_echo.1 "connect example.org" "connect" "example.org" (by decide),
    ConnectCmd_Create_echo.2 "connect example.org 069" "connect" "example.org" "069"
      (by decide) hd (by decide),
    by decide⟩

/-- The outcomes of `ConnectCmd::Create` on three tokens of which the third is all
digits. -/
theorem ConnectCmd_Create_digits (cmdline v h p : String)
    (htok : Tokenize cmdline = [v, h, p]) (hd : AllDigits p) :
    ConnectCmd.Create cmdline =
      if decimalValue p > ULLONG_MAX then .error .out_of_range
      else if decimalValue p > UINT16_MAX then .ok (.error .kInvalidPortNum)
      else .ok (.ok (ConnectCmd.ctor h (decimalValue p))) := by
  have hne : p.data ≠ [] := Tokenize_ne_empty cmdline p (by simp [htok])
  have hpos : IsPositiveNum p = true := by
    simp only [IsPositiveNum, List.all_eq_true]
    exact fun c hc => (isdigit_iff c).2 (hd c hc)
  simp only [ConnectCmd.Create, htok, List.length_cons, List.length_nil,
    List.getD_cons_succ, List.getD_cons_zero, hpos, stoull_digits p hne hd]
  by_cases h1 : decimalValue p > ULLONG_MAX
  · simp [h1]
  · by_cases h2 : decimalValue p > UINT16_MAX
    · simp [h1, h2]
    · have hmax : UINT16_MAX = 65535 := by decide
      have h3 : decimalValue p % 65536 = decimalValue p := by
        apply Nat.mod_eq_of_lt
        rw [hmax] at h2
        omega
      simp only [h1, h2, if_false]
      norm_num [h3]

/-- A port token with a character that is not a digit is rejected with
`InvalidPortNum`. -/
theorem ConnectCmd_Create_non_digit (cmdline v h p : String)
    (htok : Tokenize cmdline = [v, h, p]) (hbad : ∃ c ∈ p.data, ¬ ('0' ≤ c ∧ c ≤ '9')) :
    ConnectCmd.Create cmdline = .ok (.error .kInvalidPortNum) := by
  have hpos := IsPositiveNum_eq_false hbad
  simp [ConnectCmd.Create, htok, hpos]

/-- A port value above 65535 that still fits `unsigned long long` is rejected with
`InvalidPortNum`. -/
theorem ConnectCmd_Create_above_UINT16_MAX (cmdline v h p : String)
    (htok : Tokenize cmdline = [v, h, p]) (hd : AllDigits p)
    (hlo : 65535 < decimalValue p) (hhi : decimalValue p ≤ 18446744073709551615) :
    ConnectCmd.Create cmdline = .ok (.error .kInvalidPortNum) := by
  have h1 : ¬ decimalValue p > ULLONG_MAX := by
    have : ULLONG_MAX = 18446744073709551615 := by decide
    omega
  have h2 : decimalValue p > UINT16_MAX := by
    have : UINT16_MAX = 65535 := by decide
    omega
  rw [ConnectCmd_Create_digits cmdline v h p htok hd]
  simp [h1, h2]

/-- C11, the code at the failing input: `connect host 18446744073709551616` has three
tokens, the third all digits with value `2 ^ 64`, above 65535; `ConnectCmd::Create`
leaves through `std::out_of_range` instead of returning `InvalidPortNum`. -/
theorem ConnectCmd_Create_two_pow_64_throws :
    Tokenize "connect host 18446744073709551616" =
      ["connect", "host", "18446744073709551616"] ∧
    IsPositiveNum "18446744073709551616" = true ∧
    decimalValue "18446744073709551616" = 2 ^ 64 ∧
    ConnectCmd.Create "connect host 18446744073709551616" = .error .out_of_range ∧
    ConnectCmd.Create "connect host 18446744073709551616" ≠
      .ok (.error .kInvalidPortNum) := by
  refine ⟨by decide, by decide, by decide, by decide, by decide⟩

/-- C12: with fewer than two or more than three tokens `ConnectCmd::Create` fails with
`InvalidNumArgs`, whatever the tokens are; so a line of four or more tokens never
reports `InvalidPortNum`. -/
theorem ConnectCmd_Create_arity (cmdline : String)
    (h : (Tokenize cmdline).length < 2 ∨ (Tokenize cmdline).length > 3) :
    ConnectCmd.Create cmdline = .ok (.error .kInvalidNumArgs) ∧
    ConnectCmd.Create cmdline ≠ .ok (.error .kInvalidPortNum) := by
  have hc : ConnectCmd.Create cmdline = .ok (.error .kInvalidNumArgs) := by
    simp only [ConnectCmd.Create]
    rcases h with h | h <;> simp [h]
  refine ⟨hc, ?_⟩
  rw [hc]
  decide

theorem ConnectCmd_Create_arity_witness :
    (ConnectCmd.Create "connect" = .ok (.error .kInvalidNumArgs) ∧
      ConnectCmd.Create "connect" ≠ .ok (.error .kInvalidPortNum)) ∧
    (ConnectCmd.Create "connect host 70000x extra" = .ok (.error .kInvalidNumArgs) ∧
      ConnectCmd.Create "connect host 70000x extra" ≠ .ok (.error .kInvalidPortNum)) :=
  ⟨ConnectCmd_Create_arity "connect" (Or.inl (by decide)),
    ConnectCmd_Create_arity "connect host 70000x extra" (Or.inr (by decide))⟩

/-! `mode` and `help` -/

/-- The narrowed result of `std::tolower` is the ASCII lower-case character. -/
theorem ofNat_tolower (c : Char) : Char.ofNat (tolower c.toNat) = c.toLower := by
  unfold tolower Char.toLower
  by_cases h : 65 ≤ c.toNat ∧ c.toNat ≤ 90
  · simp [h]
  · simp [h]

/-- Lower-casing keeps the length. -/
theorem asciiLower_length (m : String) : (asciiLower m).length = m.length := by
  simp only [asciiLower, String.length, List.length_map]

/-- The outcome of `ModeCmd::Create` on two tokens. -/
theorem ModeCmd_Create_two (kNetAscii kOctet : Mode) (cmdline v m : String)
    (htok : Tokenize cmdline = [v, m]) :
    ModeCmd.Create kNetAscii kOctet cmdline =
      if asciiLower m = kNetAscii ∨ asciiLower m = kOctet
      then .ok (ModeCmd.ctor (asciiLower m)) else .error .kInvalidMode := by
  have hl : String.mk (m.data.map fun c => Char.ofNat (tolower c.toNat)) = asciiLower m := by
    simp only [asciiLower, ofNat_tolower]
  simp only [ModeCmd.Create, htok, List.length_cons, List.length_nil,
    List.getD_cons_succ, List.getD_cons_zero, hl]
  by_cases h1 : asciiLower m = kNetAscii
  · simp [h1]
  · by_cases h2 : asciiLower m = kOctet
    · simp [h2]
    · simp [h1, h2]

/-- C13: on two tokens `[v, m]` `ModeCmd::Create` succeeds exactly when the ASCII
lower-casing of `m` is one of the two recognized mode strings, then stores that
lower-cased string (as long as `m`), and otherwise returns `InvalidMode`; two tokens
with the same lower-casing give the same outcome; any other token count gives
`InvalidNumArgs`. -/
theorem ModeCmd_Create_spec (kNetAscii kOctet : Mode) :
    (∀ cmdline v m : String, Tokenize cmdline = [v, m] →
      ((∃ c, ModeCmd.Create kNetAscii kOctet cmdline = .ok c) ↔
        (asciiLower m = kNetAscii ∨ asciiLower m = kOctet)) ∧
      (∀ c, ModeCmd.Create kNetAscii kOctet cmdline = .ok c →
        c.Mode = asciiLower m ∧ c.Mode.length = m.length) ∧
      (¬ (asciiLower m = kNetAscii ∨ asciiLower m = kOctet) →
        ModeCmd.Create kNetAscii kOctet cmdline = .error .kInvalidMode)) ∧
    (∀ cmdline₁ cmdline₂ v₁ v₂ m₁ m₂ : String,
      Tokenize cmdline₁ = [v₁, m₁] → Tokenize cmdline₂ = [v₂, m₂] →
      asciiLower m₁ = asciiLower m₂ →
      ModeCmd.Create kNetAscii kOctet cmdline₁ = ModeCmd.Create kNetAscii kOctet cmdline₂) ∧
    (∀ cmdline : String, (Tokenize cmdline).length ≠ 2 →
      ModeCmd.Create kNetAscii kOctet cmdline = .error .kInvalidNumArgs) := by
  refine ⟨?_, ?_, ?_⟩
  · intro cmdline v m htok
    have hcr := ModeCmd_Create_two kNetAscii kOctet cmdline v m htok
    by_cases hrec : asciiLower m = kNetAscii ∨ asciiLower m = kOctet
    · rw [if_pos hrec] at hcr
      refine ⟨⟨fun _ => hrec, fun _ => ⟨_, hcr⟩⟩, ?_, fun hn => absurd hrec hn⟩
      intro c hc
      rw [hcr] at hc
      cases hc
      exact ⟨rfl, asciiLower_length m⟩
    · rw [if_neg hrec] at hcr
      refine ⟨⟨?_, fun h => absurd h hrec⟩, ?_, fun _ => hcr⟩
      · rintro ⟨c, hc⟩
        rw [hcr] at hc
        cases hc
      · intro c hc
        rw [hcr] at hc
        cases hc
  · intro cmdline₁ cmdline₂ v₁ v₂ m₁ m₂ h₁ h₂ hlow
    rw [ModeCmd_Create_two kNetAscii kOctet cmdline₁ v₁ m₁ h₁,
      ModeCmd_Create_two kNetAscii kOctet cmdline₂ v₂ m₂ h₂, hlow]
  · intro cmdline hlen
    simp [ModeCmd.Create, hlen]

theorem ModeCmd_Create_spec_witness :
    (((∃ c, ModeCmd.Create "netascii" "octet" "mode OcTeT" = .ok c) ↔
        (asciiLower "OcTeT" = "netascii" ∨ asciiLower "OcTeT" = "octet")) ∧
      (∀ c, ModeCmd.Create "netascii" "octet" "mode OcTeT" = .ok c →
        c.Mode = asciiLower "OcTeT" ∧ c.Mode.length = "OcTeT".length) ∧
      (¬ (asciiLower "OcTeT" = "netascii" ∨ asciiLower "OcTeT" = "octet") →
        ModeCmd.Create "netascii" "octet" "mode OcTeT" = .error .kInvalidMode)) ∧
    ModeCmd.Create "netascii" "octet" "mode OCTET" =
      ModeCmd.Create "netascii" "octet" "mode octet" ∧
    ModeCmd.Create "netascii" "octet" "mode foo" = .error .kInvalidMode ∧
    ModeCmd.Create "netascii" "octet" "mode" = .error .kInvalidNumArgs :=
  ⟨(ModeCmd_Create_spec "netascii" "octet").1 "mode OcTeT" "mode" "OcTeT" (by decide),
    (ModeCmd_Create_spec "netascii" "octet").2.1 "mode OCTET" "mode octet" "mode" "mode"
      "OCTET" "octet" (by decide) (by decide) (by decide),
    ((ModeCmd_Create_spec "netascii" "octet").1 "mode foo" "mode" "foo" (by decide)).2.2
      (by decide),
    (ModeCmd_Create_spec "netascii" "octet").2.2 "mode" (by decide)⟩

/-- C14: `HelpCmd::Create` succeeds exactly on lines of two tokens, and then the target
verb is the second token unchanged, recognized verb or not; every other token count
fails with `InvalidNumArgs`. -/
theorem HelpCmd_Create_spec (cmdline : String) :
    ((∃ c, HelpCmd.Create cmdline = .ok c) ↔ (Tokenize cmdline).length = 2) ∧
    (∀ v t : String, Tokenize cmdline = [v, t] →
      ∃ c, HelpCmd.Create cmdline = .ok c ∧ c.TargetCmd = t) ∧
    ((Tokenize cmdline).length ≠ 2 → HelpCmd.Create cmdline = .error .kInvalidNumArgs) := by
  have hfail : (Tokenize cmdline).length ≠ 2 →
      HelpCmd.Create cmdline = .error .kInvalidNumArgs := by
    intro hlen
    simp [HelpCmd.Create, hlen]
  have hok : (Tokenize cmdline).length = 2 → ∃ c, HelpCmd.Create cmdline = .ok c := by
    intro hlen
    simp [HelpCmd.Create, hlen]
  refine ⟨⟨?_, hok⟩, ?_, hfail⟩
  · rintro ⟨c, hc⟩
    by_contra hlen
    rw [hfail hlen] at hc
    cases hc
  · intro v t htok
    refine ⟨HelpCmd.ctor t, ?_, rfl⟩
    simp [HelpCmd.Create, htok]

theorem HelpCmd_Create_spec_witness :
    (∃ c, HelpCmd.Create "help frobnicate" = .ok c ∧ c.TargetCmd = "frobnicate") ∧
    (∃ c, HelpCmd.Create "help get" = .ok c ∧ c.TargetCmd = "get") ∧
    HelpCmd.Create "help" = .error .kInvalidNumArgs ∧
    HelpCmd.Create "help get put" = .error .kInvalidNumArgs :=
  ⟨(HelpCmd_Create_spec "help frobnicate").2.1 "help" "frobnicate" (by decide),
    (HelpCmd_Create_spec "help get").2.1 "help" "get" (by decide),
    (HelpCmd_Create_spec "help").2.2 (by decide),
    (HelpCmd_Create_spec "help get put").2.2 (by decide)⟩

/-! The tokenizer and the digit validator -/

/-- The tokens of a stream, laid end to end, are the token under construction followed
by the characters of the stream that are not whitespace. -/
theorem extractTokens_flatten (s : List Char) :
    ∀ cur : List Char,
      (extractTokens cur s).flatten = cur ++ s.filter fun c => !isspace c := by
  induction s with
  | nil =>
    intro cur
    by_cases hcur : cur = []
    · simp [extractTokens, hcur]
    · simp [extractTokens, hcur]
  | cons c cs ih =>
    intro cur
    by_cases hc : isspace c = true
    · by_cases hcur : cur = []
      · simp [extractTokens, hc, hcur, ih]
      · simp [extractTokens, hc, hcur, ih]
    · simp [extractTokens, hc, ih]

/-- No token that `operator>>` extracts holds a whitespace character. -/
theorem extractTokens_no_space (s : List Char) :
    ∀ cur : List Char, (∀ c ∈ cur, isspace c = false) →
      ∀ t ∈ extractTokens cur s, ∀ c ∈ t, isspace c = false := by
  induction s with
  | nil =>
    intro cur hcur t ht
    by_cases hnil : cur = []
    · simp [extractTokens, hnil] at ht
    · simp [extractTokens, hnil] at ht
      rw [ht]; exact hcur
  | cons x xs ih =>
    intro cur hcur t ht
    by_cases hx : isspace x = true
    · by_cases hnil : cur = []
      · simp [extractTokens, hx, hnil] at ht
        exact ih [] (by simp) t ht
      · simp [extractTokens, hx, hnil] at ht
        rcases ht with ht | ht
        · rw [ht]; exact hcur
        · exact ih [] (by simp) t ht
    · simp [extractTokens, hx] at ht
      refine ih (cur ++ [x]) ?_ t ht
      intro c hc
      rcases List.mem_append.1 hc with h | h
      · exact hcur c h
      · rw [List.mem_singleton.1 h]
        simpa using hx

/-- A stream of whitespace only holds no token. -/
theorem extractTokens_blank (s : List Char) (h : ∀ c ∈ s, isspace c = true) :
    extractTokens [] s = [] := by
  induction s with
  | nil => simp [extractTokens]
  | cons c cs ih =>
    have hc : isspace c = true := h c (List.mem_cons_self _ _)
    simp [extractTokens, hc, ih fun x hx => h x (List.mem_cons_of_mem _ hx)]

/-- A line of whitespace only has no token. -/
theorem Tokenize_blank (cmdline : String) (h : ∀ c ∈ cmdline.data, isspace c = true) :
    Tokenize cmdline = [] := by
  have hsub : ∀ c ∈ c_str cmdline.data, isspace c = true := fun c hc =>
    h c ((List.takeWhile_prefix _).subset hc)
  simp [Tokenize, extractTokens_blank _ hsub]

/-- C18: for a line without NUL, no token of `Tokenize` is empty, no token holds a
whitespace character, and the tokens laid end to end are the line with its whitespace
characters removed; a line of whitespace only (the empty line too) has no token; the
two quote characters are not whitespace, so they are kept as token characters. -/
theorem Tokenize_spec (cmdline : String) (hnul : ∀ c ∈ cmdline.data, c.toNat ≠ 0) :
    (∀ t ∈ Tokenize cmdline, t ≠ "" ∧ ∀ c ∈ t.data, isspace c = false) ∧
    ((Tokenize cmdline).map String.data).flatten =
      cmdline.data.filter (fun c => !isspace c) ∧
    ((∀ c ∈ cmdline.data, isspace c = true) → Tokenize cmdline = []) ∧
    isspace (Char.ofNat 34) = false ∧ isspace (Char.ofNat 39) = false := by
  have hcs : c_str cmdline.data = cmdline.data := c_str_eq_self hnul
  refine ⟨?_, ?_, Tokenize_blank cmdline, by decide, by decide⟩
  · intro t ht
    refine ⟨?_, ?_⟩
    · intro hempty
      exact Tokenize_ne_empty cmdline t ht (by rw [hempty])
    · simp only [Tokenize, List.mem_map] at ht
      obtain ⟨l, hl, rfl⟩ := ht
      exact extractTokens_no_space _ [] (by simp) l hl
  · have hmap : (Tokenize cmdline).map String.data = extractTokens [] cmdline.data := by
      simp only [Tokenize, hcs, List.map_map]
      exact List.map_id _
    rw [hmap, extractTokens_flatten]
    simp

theorem Tokenize_spec_witness :
    (∀ t ∈ Tokenize "  put \t a.txt  b ", t ≠ "" ∧ ∀ c ∈ t.data, isspace c = false) ∧
    ((Tokenize "  put \t a.txt  b ").map String.data).flatten =
      "  put \t a.txt  b ".data.filter (fun c => !isspace c) ∧
    ((∀ c ∈ "  put \t a.txt  b ".data, isspace c = true) →
      Tokenize "  put \t a.txt  b " = []) ∧
    isspace (Char.ofNat 34) = false ∧ isspace (Char.ofNat 39) = false :=
  Tokenize_spec "  put \t a.txt  b " (by decide)

/-- C19 as stated fails: `IsPositiveNum` returns true on the empty string, `std::all_of`
being true on an empty range, although the empty string is not a non-empty string of
digits. -/
theorem IsPositiveNum_empty_accepted :
    IsPositiveNum "" = true ∧
    ¬ (∀ token : String, IsPositiveNum token = true ↔ (token ≠ "" ∧ AllDigits token)) := by
  refine ⟨by decide, ?_⟩
  intro h
  exact ((h "").1 (by decide)).1 rfl

/-- C19, amended: `IsPositiveNum` returns true exactly when every character of the
token is an ASCII decimal digit; the empty string, which has no character, is
accepted. -/
theorem IsPositiveNum_spec (token : String) :
    (IsPositiveNum token = true ↔ AllDigits token) ∧ IsPositiveNum "" = true := by
  refine ⟨?_, by decide⟩
  simp only [IsPositiveNum, List.all_eq_true, AllDigits]
  exact ⟨fun h c hc => (isdigit_iff c).1 (h c hc), fun h c hc => (isdigit_iff c).2 (h c hc)⟩

/-! The dispatcher -/

/-- The verb `Exec` reads is the first token of the line. -/
theorem ReadId_of_Tokenize (cmdline v : String) (rest : List String)
    (h : Tokenize cmdline = v :: rest) : ReadId cmdline = v := by
  unfold Tokenize at h
  unfold ReadId
  cases hx : extractTokens [] (c_str cmdline.data) with
  | nil => rw [hx] at h; simp at h
  | cons t ts =>
    rw [hx] at h
    simp only [List.map_cons, List.cons.injEq] at h
    exact h.1

/-- The verb `Exec` reads from a line without token is the empty string. -/
theorem ReadId_of_blank (cmdline : String) (h : Tokenize cmdline = []) :
    ReadId cmdline = "" := by
  unfold Tokenize at h
  unfold ReadId
  cases hx : extractTokens [] (c_str cmdline.data) with
  | nil => rfl
  | cons t ts => rw [hx] at h; simp at h

/-- A verb that is none of the nine declared identifiers and not `quit` reaches the
final `else` of the chain. -/
theorem CreateCmd_none (kNetAscii kOctet : Mode) (cmd_id cmdline : String)
    (h : cmd_id ∉ recognizedVerbs) (hq : cmd_id ≠ CmdId.kQuit) :
    CmdProcessor.CreateCmd kNetAscii kOctet cmd_id cmdline = none := by
  simp only [recognizedVerbs, List.mem_cons, List.mem_singleton, List.not_mem_nil,
    or_false, not_or] at h
  obtain ⟨h1, h2, h3, h4, h5, h6, h7, h8, h9⟩ := h
  simp [CmdProcessor.CreateCmd, h1, h2, h3, h4, h5, h6, h7, h8, h9, hq]

/-- A verb that is one of the nine declared identifiers or `quit` gets its factory
invoked. -/
theorem CreateCmd_some (kNetAscii kOctet : Mode) (cmd_id cmdline : String)
    (h : cmd_id ∈ recognizedVerbs ∨ cmd_id = CmdId.kQuit) :
    ∃ r, CmdProcessor.CreateCmd kNetAscii kOctet cmd_id cmdline = some r := by
  simp only [recognizedVerbs, List.mem_cons, List.mem_singleton, List.not_mem_nil,
    or_false] at h
  unfold CmdProcessor.CreateCmd
  rcases h with (h | h | h | h | h | h | h | h | h) | h <;> subst h <;>
    simp [CmdId.kConnect, CmdId.kGet, CmdId.kPut, CmdId.kLiteral, CmdId.kMode,
      CmdId.kStatus, CmdId.kTimeout, CmdId.kRexmt, CmdId.kHelp, CmdId.kQuit]

/-- Every command reports `kNotImplemented` from `Execute`. -/
theorem Cmd_Execute_eq {Config : Type} (cmd : Cmd) (conf : Config) :
    cmd.Execute conf = .kNotImplemented := by
  cases cmd <;> rfl

/-- What `Exec` does once a factory was invoked and returned. -/
theorem Exec_of_some {Config : Type} (kNetAscii kOctet : Mode) (conf : Config)
    (cmdline : String) (r : Except ParseStatus Cmd)
    (h : CmdProcessor.CreateCmd kNetAscii kOctet (ReadId cmdline) cmdline = some (.ok r)) :
    CmdProcessor.Exec kNetAscii kOctet conf cmdline =
      match r with
      | .error e => .ok ⟨some (ReadId cmdline), false, ["error: " ++ kParseStatusToStr e]⟩
      | .ok _ => .ok ⟨some (ReadId cmdline), true, ["error: command not implemented"]⟩ := by
  unfold CmdProcessor.Exec
  simp only [h]
  cases r with
  | error e => rfl
  | ok cmd => simp [Cmd_Execute_eq, kExecStatusToStr, CmdProcessor.PrintError]

/-- No line `Exec` writes for a parse status or an execution status is a report of an
unknown command. -/
theorem status_line_not_unknown :
    (∀ e : ParseStatus, ¬ (unknownCommandLine.data <+: ("error: " ++ kParseStatusToStr e).data)) ∧
    ¬ (unknownCommandLine.data <+: "error: command not implemented".data) := by
  refine ⟨?_, by decide⟩
  intro e
  cases e <;> decide

/-- C15 as stated fails: the first token of the line `quit` is none of the nine
recognized identifiers, and `Exec` invokes the factory of `QuitCmd`, executes the
command and writes `error: command not implemented`. -/
theorem Exec_quit_not_unknown :
    ¬ (∀ (kNetAscii kOctet : Mode) (cmdline v : String) (rest : List String),
        Tokenize cmdline = v :: rest → v ∉ recognizedVerbs →
        CmdProcessor.Exec kNetAscii kOctet () cmdline =
          .ok ⟨none, false, ["error: unknown command \x27" ++ v ++ "\x27"]⟩) := by
  intro h
  have hq := h "netascii" "octet" "quit" "quit" [] (by decide) (by decide)
  revert hq
  decide

/-- C15, amended: when the first token `v` of the line is none of the nine recognized
identifiers and is not `quit`, `Exec` invokes no factory, executes nothing and writes
exactly the line `error: unknown command` followed by `v` in single quotes; when the
first token is one of the nine or `quit`, whatever `Exec` writes is not a report of an
unknown command, and the factory of that verb was invoked. -/
theorem Exec_unknown_command {Config : Type} (kNetAscii kOctet : Mode) (conf : Config) :
    (∀ (cmdline v : String) (rest : List String),
      Tokenize cmdline = v :: rest → v ∉ recognizedVerbs → v ≠ CmdId.kQuit →
      CmdProcessor.Exec kNetAscii kOctet conf cmdline =
        .ok ⟨none, false, ["error: unknown command \x27" ++ v ++ "\x27"]⟩) ∧
    (∀ (cmdline v : String) (rest : List String),
      Tokenize cmdline = v :: rest → (v ∈ recognizedVerbs ∨ v = CmdId.kQuit) →
      ∀ t, CmdProcessor.Exec kNetAscii kOctet conf cmdline = .ok t →
        t.factory = some v ∧ ∀ l ∈ t.out, ¬ (unknownCommandLine.data <+: l.data)) := by
  constructor
  · intro cmdline v rest htok hv hq
    have hid := ReadId_of_Tokenize cmdline v rest htok
    unfold CmdProcessor.Exec
    simp only [hid, CreateCmd_none kNetAscii kOctet v cmdline hv hq]
    have hlit : "error: " ++ "unknown command \x27" = "error: unknown command \x27" := by
      decide
    simp only [CmdProcessor.PrintError, ← hlit, String.append_assoc]
  · intro cmdline v rest htok hv t ht
    have hid := ReadId_of_Tokenize cmdline v rest htok
    obtain ⟨r, hr⟩ := CreateCmd_some kNetAscii kOctet v cmdline hv
    rw [← hid] at hr
    cases r with
    | error x =>
      unfold CmdProcessor.Exec at ht
      simp only [hr] at ht
      cases ht
    | ok r =>
      rw [Exec_of_some kNetAscii kOctet conf cmdline r hr] at ht
      cases r with
      | error e =>
        simp only [Except.ok.injEq] at ht
        subst ht
        refine ⟨by rw [hid], ?_⟩
        intro l hl
        rw [List.mem_singleton.1 hl]
        exact status_line_not_unknown.1 e
      | ok cmd =>
        simp only [Except.ok.injEq] at ht
        subst ht
        refine ⟨by rw [hid], ?_⟩
        intro l hl
        rw [List.mem_singleton.1 hl]
        exact status_line_not_unknown.2

theorem Exec_unknown_command_witness :
    CmdProcessor.Exec "netascii" "octet" () "foo bar" =
      .ok ⟨none, false, ["error: unknown command \x27" ++ "foo" ++ "\x27"]⟩ ∧
    (∀ t, CmdProcessor.Exec "netascii" "octet" () "connect host 70000" = .ok t →
      t.factory = some "connect" ∧ ∀ l ∈ t.out, ¬ (unknownCommandLine.data <+: l.data)) ∧
    CmdProcessor.Exec "netascii" "octet" () "connect host 70000" =
      .ok ⟨some "connect", false, ["error: invalid port number"]⟩ :=
  ⟨(Exec_unknown_command "netascii" "octet" ()).1 "foo bar" "foo" ["bar"]
      (by decide) (by decide) (by decide),
    (Exec_unknown_command "netascii" "octet" ()).2 "connect host 70000" "connect"
      ["host", "70000"] (by decide) (Or.inl (by decide)),
    by decide⟩

/-- A line whose first token is `v` starts with `v` for the dispatcher. -/
theorem ReadId_of_head (cmdline v : String) (h : (Tokenize cmdline).head? = some v) :
    ReadId cmdline = v := by
  cases htok : Tokenize cmdline with
  | nil => rw [htok] at h; simp at h
  | cons t ts =>
    rw [htok] at h
    simp only [List.head?_cons, Option.some.injEq] at h
    rw [← h]
    exact ReadId_of_Tokenize cmdline t ts htok

/-- When the chain of `Exec` loads the command through a factory, `Exec` reports the
outcome of that factory. -/
theorem Exec_reports_of_load {Config T : Type} (kNetAscii kOctet : Mode) (conf : Config)
    (cmdline verb : String) (outcome : Except StdException (ExpectedCmd T)) (up : T → Cmd)
    (hid : ReadId cmdline = verb)
    (hc : CmdProcessor.CreateCmd kNetAscii kOctet verb cmdline = some (LoadCmd outcome up)) :
    ReportsOutcome (CmdProcessor.Exec kNetAscii kOctet conf cmdline) verb outcome := by
  refine ⟨?_, ?_, ?_⟩
  · intro c ho
    unfold CmdProcessor.Exec
    simp only [hid, hc, ho, LoadCmd]
    simp [Cmd_Execute_eq, kExecStatusToStr, CmdProcessor.PrintError]
  · intro e ho
    unfold CmdProcessor.Exec
    simp only [hid, hc, ho, LoadCmd]
    rfl
  · intro x ho
    unfold CmdProcessor.Exec
    simp only [hid, hc, ho, LoadCmd]

/-- C16: `Execute` of every command returns `NotImplemented` for every configuration;
and for each verb the dispatcher knows, on every line whose first token is that verb,
`Exec` reports the outcome of the factory of that verb on the line: when the factory
succeeds, `Exec` executes the command and writes exactly
`error: command not implemented`; when the factory fails, `Exec` writes `error: `
followed by the text of the parse status and executes nothing. -/
theorem Exec_reports {Config : Type} (kNetAscii kOctet : Mode) (conf : Config)
    (cmdline : String) :
    (∀ (cmd : Cmd) (C : Type) (c : C), cmd.Execute c = .kNotImplemented) ∧
    ((Tokenize cmdline).head? = some "get" →
      ReportsOutcome (CmdProcessor.Exec kNetAscii kOctet conf cmdline) "get"
        (.ok (GetCmd.Create cmdline))) ∧
    ((Tokenize cmdline).head? = some "put" →
      ReportsOutcome (CmdProcessor.Exec kNetAscii kOctet conf cmdline) "put"
        (.ok (PutCmd.Create cmdline))) ∧
    ((Tokenize cmdline).head? = some "help" →
      ReportsOutcome (CmdProcessor.Exec kNetAscii kOctet conf cmdline) "help"
        (.ok (HelpCmd.Create cmdline))) ∧
    ((Tokenize cmdline).head? = some "mode" →
      ReportsOutcome (CmdProcessor.Exec kNetAscii kOctet conf cmdline) "mode"
        (.ok (ModeCmd.Create kNetAscii kOctet cmdline))) ∧
    ((Tokenize cmdline).head? = some "quit" →
      ReportsOutcome (CmdProcessor.Exec kNetAscii kOctet conf cmdline) "quit"
        (.ok QuitCmd.Create)) ∧
    ((Tokenize cmdline).head? = some "status" →
      ReportsOutcome (CmdProcessor.Exec kNetAscii kOctet conf cmdline) "status"
        (.ok StatusCmd.Create)) ∧
    ((Tokenize cmdline).head? = some "connect" →
      ReportsOutcome (CmdProcessor.Exec kNetAscii kOctet conf cmdline) "connect"
        (ConnectCmd.Create cmdline)) ∧
    ((Tokenize cmdline).head? = some "literal" →
      ReportsOutcome (CmdProcessor.Exec kNetAscii kOctet conf cmdline) "literal"
        (.ok LiteralCmd.Create)) ∧
    ((Tokenize cmdline).head? = some "timeout" →
      ReportsOutcome (CmdProcessor.Exec kNetAscii kOctet conf cmdline) "timeout"
        (TimeoutCmd.Create cmdline)) ∧
    ((Tokenize cmdline).head? = some "rexmt" →
      ReportsOutcome (CmdProcessor.Exec kNetAscii kOctet conf cmdline) "rexmt"
        (RexmtCmd.Create cmdline)) := by
  refine ⟨fun cmd C c => Cmd_Execute_eq cmd c, ?_, ?_, ?_, ?_, ?_, ?_, ?_, ?_, ?_, ?_⟩
  · intro h
    exact Exec_reports_of_load kNetAscii kOctet conf cmdline "get" _ Cmd.get
      (ReadId_of_head cmdline _ h) (by simp [CmdProcessor.CreateCmd, CmdId.kGet])
  · intro h
    exact Exec_reports_of_load kNetAscii kOctet conf cmdline "put" _ Cmd.put
      (ReadId_of_head cmdline _ h)
      (by simp [CmdProcessor.CreateCmd, CmdId.kGet, CmdId.kPut])
  · intro h
    exact Exec_reports_of_load kNetAscii kOctet conf cmdline "help" _ Cmd.help
      (ReadId_of_head cmdline _ h)
      (by simp [CmdProcessor.CreateCmd, CmdId.kGet, CmdId.kPut, CmdId.kHelp])
  · intro h
    exact Exec_reports_of_load kNetAscii kOctet conf cmdline "mode" _ Cmd.mode
      (ReadId_of_head cmdline _ h)
      (by simp [CmdProcessor.CreateCmd, CmdId.kGet, CmdId.kPut, CmdId.kHelp, CmdId.kMode])
  · intro h
    exact Exec_reports_of_load kNetAscii kOctet conf cmdline "quit" _ Cmd.quit
      (ReadId_of_head cmdline _ h)
      (by simp [CmdProcessor.CreateCmd, CmdId.kGet, CmdId.kPut, CmdId.kHelp, CmdId.kMode,
        CmdId.kQuit])
  · intro h
    exact Exec_reports_of_load kNetAscii kOctet conf cmdline "status" _ Cmd.status
      (ReadId_of_head cmdline _ h)
      (by simp [CmdProcessor.CreateCmd, CmdId.kGet, CmdId.kPut, CmdId.kHelp, CmdId.kMode,
        CmdId.kQuit, CmdId.kStatus])
  · intro h
    exact Exec_reports_of_load kNetAscii kOctet conf cmdline "connect" _ Cmd.connect
      (ReadId_of_head cmdline _ h)
      (by simp [CmdProcessor.CreateCmd, CmdId.kGet, CmdId.kPut, CmdId.kHelp, CmdId.kMode,
        CmdId.kQuit, CmdId.kStatus, CmdId.kConnect])
  · intro h
    exact Exec_reports_of_load kNetAscii kOctet conf cmdline "literal" _ Cmd.literal
      (ReadId_of_head cmdline _ h)
      (by simp [CmdProcessor.CreateCmd, CmdId.kGet, CmdId.kPut, CmdId.kHelp, CmdId.kMode,
        CmdId.kQuit, CmdId.kStatus, CmdId.kConnect, CmdId.kLiteral])
  · intro h
    exact Exec_reports_of_load kNetAscii kOctet conf cmdline "timeout" _ Cmd.timeout
      (ReadId_of_head cmdline _ h)
      (by simp [CmdProcessor.CreateCmd, CmdId.kGet, CmdId.kPut, CmdId.kHelp, CmdId.kMode,
        CmdId.kQuit, CmdId.kStatus, CmdId.kConnect, CmdId.kLiteral, CmdId.kTimeout])
  · intro h
    exact Exec_reports_of_load kNetAscii kOctet conf cmdline "rexmt" _ Cmd.rexmt
      (ReadId_of_head cmdline _ h)
      (by simp [CmdProcessor.CreateCmd, CmdId.kGet, CmdId.kPut, CmdId.kHelp, CmdId.kMode,
        CmdId.kQuit, CmdId.kStatus, CmdId.kConnect, CmdId.kLiteral, CmdId.kTimeout,
        CmdId.kRexmt])

theorem Exec_reports_witness :
    (GetCmd.Create "get" = .error .kInvalidNumArgs ∧
      CmdProcessor.Exec "netascii" "octet" () "get" =
        .ok ⟨some "get", false, ["error: " ++ kParseStatusToStr .kInvalidNumArgs]⟩) ∧
    (PutCmd.Create "put a b c" = .ok (PutCmd.ctor "" "" "c" ["a", "b"]) ∧
      CmdProcessor.Exec "netascii" "octet" () "put a b c" =
        .ok ⟨some "put", true, ["error: command not implemented"]⟩) ∧
    (TimeoutCmd.Create "timeout -1" = .ok (.error .kInvalidTimeout) ∧
      CmdProcessor.Exec "netascii" "octet" () "timeout -1" =
        .ok ⟨some "timeout", false, ["error: " ++ kParseStatusToStr .kInvalidTimeout]⟩) ∧
    (RexmtCmd.Create "rexmt 5" = .ok (.ok (RexmtCmd.ctor 5)) ∧
      CmdProcessor.Exec "netascii" "octet" () "rexmt 5" =
        .ok ⟨some "rexmt", true, ["error: command not implemented"]⟩) ∧
    "error: " ++ kParseStatusToStr .kInvalidNumArgs = "error: invalid number of arguments" ∧
    "error: " ++ kParseStatusToStr .kInvalidTimeout = "error: invalid timeout" :=
  ⟨⟨by decide,
      ((Exec_reports "netascii" "octet" () "get").2.1 (by decide)).2.1
        .kInvalidNumArgs (by decide)⟩,
    ⟨by decide,
      ((Exec_reports "netascii" "octet" () "put a b c").2.2.1 (by decide)).1
        (PutCmd.ctor "" "" "c" ["a", "b"]) (by decide)⟩,
    ⟨by decide,
      ((Exec_reports "netascii" "octet" () "timeout -1").2.2.2.2.2.2.2.2.2.1
        (by decide)).2.1 .kInvalidTimeout (by decide)⟩,
    ⟨by decide,
      ((Exec_reports "netascii" "octet" () "rexmt 5").2.2.2.2.2.2.2.2.2.2
        (by decide)).1 (RexmtCmd.ctor 5) (by decide)⟩,
    by decide, by decide⟩

/-- C17 as stated fails: `help foo` parses, `foo` is no recognized verb, and executing
the command returns `NotImplemented`, not `UnknownCmdHelp`. -/
theorem HelpCmd_Execute_not_unknown :
    ¬ (∀ cmdline t : String, Tokenize cmdline = ["help", t] → t ∉ recognizedVerbs →
        ∃ c, HelpCmd.Create cmdline = .ok c ∧ c.Execute () = .kUnknownCmdHelp) := by
  intro h
  obtain ⟨c, -, hc⟩ := h "help foo" "foo" (by decide) (by decide)
  revert hc
  simp [HelpCmd.Execute]

/-- C17, amended: a line `help t` of exactly two tokens, `t` not a recognized verb,
parses successfully with target `t`, and executing the Help command returns
`NotImplemented` for every configuration; `UnknownCmdHelp` is not returned. -/
theorem HelpCmd_unknown_target {Config : Type} (conf : Config) (cmdline t : String)
    (htok : Tokenize cmdline = ["help", t]) (_ht : t ∉ recognizedVerbs) :
    ∃ c, HelpCmd.Create cmdline = .ok c ∧ c.TargetCmd = t ∧
      c.Execute conf = .kNotImplemented ∧ c.Execute conf ≠ .kUnknownCmdHelp := by
  refine ⟨HelpCmd.ctor t, ?_, rfl, rfl, ?_⟩
  · simp [HelpCmd.Create, htok]
  · simp [HelpCmd.Execute]

theorem HelpCmd_unknown_target_witness :
    Tokenize "help foo" = ["help", "foo"] ∧ "foo" ∉ recognizedVerbs ∧
    ∃ c, HelpCmd.Create "help foo" = .ok c ∧ c.TargetCmd = "foo" ∧
      c.Execute () = .kNotImplemented ∧ c.Execute () ≠ .kUnknownCmdHelp :=
  ⟨by decide, by decide, HelpCmd_unknown_target () "help foo" "foo" (by decide) (by decide)⟩

/-- C20: on a line that is empty or holds whitespace only, `Exec` reads the empty
string as the verb, matches no command, invokes no factory, executes nothing and writes
exactly `error: unknown command` followed by two single quotes. -/
theorem Exec_blank_line {Config : Type} (kNetAscii kOctet : Mode) (conf : Config)
    (cmdline : String) (h : ∀ c ∈ cmdline.data, isspace c = true) :
    ReadId cmdline = "" ∧
    CmdProcessor.CreateCmd kNetAscii kOctet (ReadId cmdline) cmdline = none ∧
    CmdProcessor.Exec kNetAscii kOctet conf cmdline =
      .ok ⟨none, false, ["error: unknown command \x27\x27"]⟩ := by
  have hid : ReadId cmdline = "" := ReadId_of_blank cmdline (Tokenize_blank cmdline h)
  have hnone : CmdProcessor.CreateCmd kNetAscii kOctet "" cmdline = none :=
    CreateCmd_none kNetAscii kOctet "" cmdline (by decide) (by decide)
  refine ⟨hid, by rw [hid]; exact hnone, ?_⟩
  unfold CmdProcessor.Exec
  simp only [hid, hnone]
  rfl

theorem Exec_blank_line_witness :
    (∀ c ∈ " \t ".data, isspace c = true) ∧
    ReadId " \t " = "" ∧
    CmdProcessor.CreateCmd "netascii" "octet" (ReadId " \t ") " \t " = none ∧
    CmdProcessor.Exec "netascii" "octet" () " \t " =
      .ok ⟨none, false, ["error: unknown command \x27\x27"]⟩ :=
  ⟨by decide, Exec_blank_line "netascii" "octet" () " \t " (by decide)⟩

end client
end tftp
